import Mathlib

/-!
Verification of `src/library/stareditor.cpp` (Mixxx StarEditor).

The mapper `StarEditor::starAtPosition`, the event handlers
(`mouseMoveEvent`, `leaveEvent`, `mouseReleaseEvent`, `paintEvent`) and the
static `renderHelper` are embedded shallowly below.

Numeric model: all C++ `int` values are `Int`; C++ `/` on `int` is `Int.tdiv`
(truncation toward zero, as in C++11 and later). The source compares `int`
values against the `double` expressions `starsWidth * 0.05` and
`starsWidth * -0.05`. These comparisons are modelled by exact rational
arithmetic, scaled by 20 so that they stay inside `Int`:
  `x < starsWidth * 0.05`   becomes  `20 * x < starsWidth`
  `x < starsWidth * -0.05`  becomes  `20 * x < -starsWidth`
  `xOffset > starsWidth * 0.05` becomes `20 * xOffset > starsWidth`.
For every `starsWidth` of `int` magnitude (|starsWidth| < 2^31) the double
product `starsWidth * 0.05` differs from the exact rational
`starsWidth / 20` by less than half an ulp, so every integer-vs-double
comparison in the source agrees with the exact rational comparison: when
`starsWidth` is a multiple of 20 the product rounds to exactly
`starsWidth / 20`, and otherwise the exact value is at distance ≥ 1/20 − ε
from every integer, far above the rounding error.
-/

namespace StarEditorSpec

/-- Modelled from the spec: `StarRating::kMinStarCount` lives in
`library/starrating.h`, which is not part of the sources; the spec states
that the valid rating range is `[0, maxStarCount]` and that the sentinel is
one less than the minimum, so the minimum star count is 0. -/
def kMinStarCount : Int := 0

/-- `constexpr int kInvalidStarCount = StarRating::kMinStarCount - 1;` -/
def kInvalidStarCount : Int := kMinStarCount - 1

/-- `int xOffset = std::max((m_styleOption.rect.width() - starsWidth) / 2, 0);` -/
def xOffsetOf (cellWidth starsWidth : Int) : Int :=
  max ((cellWidth - starsWidth).tdiv 2) 0

/-- `double leftVoid = xOffset > starsWidth * 0.05 ? starsWidth * -0.05 : 0;`
as the exact rational value it denotes (used in statements; the executable
definition below uses the ×20 integer scaling of the same comparisons). -/
def leftVoid (starsWidth xOffset : Int) : ℚ :=
  if (xOffset : ℚ) > (starsWidth : ℚ) * (5 / 100)
    then (starsWidth : ℚ) * (-(5 / 100))
    else 0

/-- `leftVoid` scaled by 20: the condition `x < leftVoid` of the source is
exactly `20 * x < leftVoid20`. -/
def leftVoid20 (starsWidth xOffset : Int) : Int :=
  if 20 * xOffset > starsWidth then -starsWidth else 0

/-- The divisor `starsWidth / m_starRating.maxStarCount()` appearing in the
star computation of `StarEditor::starAtPosition`. -/
def starDivisor (starsWidth maxStarCount : Int) : Int :=
  starsWidth.tdiv maxStarCount

/-- Body of `StarEditor::starAtPosition` after the centering shift
`x -= std::max(xOffset, 0)` has been applied: `x` here is the shifted
coordinate. -/
def starAtPositionShifted (starsWidth maxStarCount xOffset x : Int) : Int :=
  if 20 * x < leftVoid20 starsWidth xOffset ∨ x ≥ starsWidth then
    kInvalidStarCount
  else if 20 * x < starsWidth then
    0
  else
    let star := x.tdiv (starDivisor starsWidth maxStarCount) + 1
    if star ≤ 0 ∨ star > maxStarCount then 0
    else star

/-- `int StarEditor::starAtPosition(int x)`: `starsWidth` is
`m_starRating.sizeHint().width()`, `maxStarCount` is
`m_starRating.maxStarCount()`, `cellWidth` is `m_styleOption.rect.width()`. -/
def starAtPosition (starsWidth maxStarCount cellWidth x : Int) : Int :=
  let xOffset := xOffsetOf cellWidth starsWidth
  starAtPositionShifted starsWidth maxStarCount xOffset (x - max xOffset 0)

/-! ## Editor state and event handlers

`EditorState` captures the mutable rating data of a `StarEditor`:
the current `m_starRating.starCount()` and the value that `resetRating()`
restores. `EditorConfig` carries the geometry the handlers read:
`m_starRating.sizeHint().width()`, `m_starRating.maxStarCount()` and
`m_styleOption.rect.width()`.

Event handlers return, besides the state, the observable effects they
produce: whether `update()` (a redraw request) was issued, the list of
arguments passed to `m_starRating.setStarCount`, and how many times
`editingFinished` was emitted. -/

structure EditorConfig where
  starsWidth : Int
  maxStarCount : Int
  cellWidth : Int

structure EditorState where
  starCount : Int
  initialCount : Int
deriving DecidableEq

/-- Modelled from the spec: `StarEditor::resetRating` is declared in
`library/stareditor.h`, which is not part of the sources; per the spec it
resets the displayed rating to the original/last-confirmed value and
redraws. Returns (state, redraw requested, setStarCount arguments). -/
def resetRating (s : EditorState) : EditorState × Bool × List Int :=
  ({ s with starCount := s.initialCount }, true, [s.initialCount])

/-- `void StarEditor::mouseMoveEvent(QMouseEvent*)`: map the event x
coordinate through `starAtPosition`; reset on an invalid result, apply and
redraw on a changed result, do nothing otherwise.
Returns (state, redraw requested, setStarCount arguments). -/
def mouseMoveEvent (cfg : EditorConfig) (s : EditorState) (x : Int) :
    EditorState × Bool × List Int :=
  let star := starAtPosition cfg.starsWidth cfg.maxStarCount cfg.cellWidth x
  if star ≤ kInvalidStarCount then
    resetRating s
  else if star ≠ s.starCount then
    ({ s with starCount := star }, true, [star])
  else
    (s, false, [])

/-- `void StarEditor::leaveEvent(QEvent*)`: reset to last confirmed value. -/
def leaveEvent (s : EditorState) : EditorState × Bool × List Int :=
  resetRating s

/-- `void StarEditor::mouseReleaseEvent(QMouseEvent*)`: ignores the event
(and thus the released button) and emits `editingFinished` once.
Returns (state, number of editingFinished emissions). -/
def mouseReleaseEvent (s : EditorState) (button : Int) : EditorState × Nat :=
  (s, 1)

/-- The pointer events a `StarEditor` handles during its lifetime. -/
inductive EditorEvent where
  | move (x : Int)
  | leave
  | release (button : Int)
  | paint

/-- One event step: the resulting state and the arguments passed to
`m_starRating.setStarCount` during the step. `paintEvent` does not touch
the rating. -/
def stepEvent (cfg : EditorConfig) (s : EditorState) :
    EditorEvent → EditorState × List Int
  | .move x => ((mouseMoveEvent cfg s x).1, (mouseMoveEvent cfg s x).2.2)
  | .leave => ((leaveEvent s).1, (leaveEvent s).2.2)
  | .release b => ((mouseReleaseEvent s b).1, [])
  | .paint => (s, [])

/-- Run a sequence of events from a state, collecting every argument passed
to `m_starRating.setStarCount` along the way. -/
def runEvents (cfg : EditorConfig) (s : EditorState) :
    List EditorEvent → EditorState × List Int
  | [] => (s, [])
  | e :: es =>
    let r := stepEvent cfg s e
    let r2 := runEvents cfg r.1 es
    (r2.1, r.2 ++ r2.2)

/-- The state right after the editor is created and the delegate has loaded
the cell's existing rating into it: displayed and last-confirmed count both
equal that rating. -/
def initialEditorState (initRating : Int) : EditorState :=
  { starCount := initRating, initialCount := initRating }

/-! ## Style option, paint event and render helper -/

structure QRect where
  width : Int
  height : Int
deriving DecidableEq

/-- The fields of `QStyleOptionViewItem` that `stareditor.cpp` reads or
writes: the cell rectangle and the `State_MouseOver`, `State_Selected`,
`State_Enabled`, `State_Active` style-state flags. -/
structure QStyleOption where
  rect : QRect
  mouseOver : Bool
  selected : Bool
  enabled : Bool
  active : Bool
deriving DecidableEq

inductive QPaletteColorGroup where
  | Normal
  | Disabled
  | Inactive
deriving DecidableEq

inductive QPaletteColorRole where
  | HighlightedText
  | Text
deriving DecidableEq

/-- The hosting view as `paintEvent` sees it: `none` models a null
`m_pTableView`; `some none` a view whose `selectionModel()` is null;
`some (some b)` a view whose selection model answers `b` to
`isSelected(m_index)`. -/
def isSelectedQuery : Option (Option Bool) → Bool
  | some (some b) => b
  | _ => false

/-- `void StarEditor::paintEvent(QPaintEvent*)`: sets `State_MouseOver`,
refreshes the option rectangle to the widget's bounds, ors in
`State_Selected` when the view's selection model reports the cell as
selected, then calls `renderHelper`. The second component records that
`renderHelper` was invoked (always true). -/
def paintEvent (opt : QStyleOption) (widgetRect : QRect)
    (tableView : Option (Option Bool)) : QStyleOption × Bool :=
  let opt1 := { opt with mouseOver := true, rect := widgetRect }
  let opt2 :=
    if isSelectedQuery tableView then { opt1 with selected := true } else opt1
  (opt2, true)

/-- The color-group selection of `StarEditor::renderHelper`:
`cg = enabled ? Normal : Disabled; if (cg == Normal && !active) cg = Inactive`. -/
def renderColorGroup (opt : QStyleOption) : QPaletteColorGroup :=
  let cg := if opt.enabled then QPaletteColorGroup.Normal
            else QPaletteColorGroup.Disabled
  if cg = QPaletteColorGroup.Normal ∧ ¬ opt.active then
    QPaletteColorGroup.Inactive
  else cg

/-- The brush color `StarEditor::renderHelper` installs before painting the
stars: palette color of (group, HighlightedText) when selected, of
(group, Text) otherwise. The palette is abstract: any assignment of colors
(here `Nat`-coded) to (group, role) pairs. -/
def renderBrush (palette : QPaletteColorGroup → QPaletteColorRole → Nat)
    (opt : QStyleOption) : Nat :=
  if opt.selected then palette (renderColorGroup opt) QPaletteColorRole.HighlightedText
  else palette (renderColorGroup opt) QPaletteColorRole.Text

/-! ## Helper lemmas -/

/-- An integer comparison against five percent of `a`, scaled by 20. -/
lemma scaled_lt_iff (a x : Int) : 20 * x < a ↔ (x : ℚ) < (a : ℚ) * (5 / 100) := by
  constructor
  · intro h
    have h' : (20 * x : ℚ) < (a : ℚ) := by exact_mod_cast h
    push_cast at h'
    linarith
  · intro h
    have h' : (20 * (x : ℚ)) < (a : ℚ) := by linarith
    exact_mod_cast h'

/-- The mirrored form of `scaled_lt_iff`. -/
lemma scaled_lt_iff' (a x : Int) : a < 20 * x ↔ (a : ℚ) * (5 / 100) < (x : ℚ) := by
  constructor
  · intro h
    have h' : (a : ℚ) < (20 * x : ℚ) := by exact_mod_cast h
    push_cast at h'
    linarith
  · intro h
    have h' : (a : ℚ) < (20 * (x : ℚ)) := by linarith
    exact_mod_cast h'

/-- The scaled integer left-void test coincides with the rational one. -/
lemma leftVoid20_iff (sw xo x : Int) :
    20 * x < leftVoid20 sw xo ↔ (x : ℚ) < leftVoid sw xo := by
  unfold leftVoid20 leftVoid
  by_cases h : 20 * xo > sw
  · rw [if_pos h, if_pos ((scaled_lt_iff' sw xo).mp h)]
    rw [show ((sw : ℚ) * (-(5 / 100))) = ((-sw : Int) : ℚ) * (5 / 100) by push_cast; ring]
    exact scaled_lt_iff (-sw) x
  · rw [if_neg h, if_neg (fun hq => h ((scaled_lt_iff' sw xo).mpr hq))]
    constructor
    · intro h'
      have : x < 0 := by omega
      exact_mod_cast this
    · intro h'
      have : x < 0 := by exact_mod_cast h'
      omega

/-- `starAtPositionShifted` returns the sentinel, 0, or a count in `[1, maxStarCount]`. -/
lemma starAtPositionShifted_cases (sw m xo x : Int) :
    starAtPositionShifted sw m xo x = kInvalidStarCount ∨
    starAtPositionShifted sw m xo x = 0 ∨
    (1 ≤ starAtPositionShifted sw m xo x ∧ starAtPositionShifted sw m xo x ≤ m) := by
  simp only [starAtPositionShifted]
  generalize x.tdiv (starDivisor sw m) + 1 = s
  split
  · exact Or.inl rfl
  · split
    · exact Or.inr (Or.inl rfl)
    · split
      · exact Or.inr (Or.inl rfl)
      · rename_i h
        exact Or.inr (Or.inr (by omega))

/-- The two `std::max` applications leave `xOffsetOf` unchanged. -/
lemma max_xOffsetOf (cw sw : Int) : max (xOffsetOf cw sw) 0 = xOffsetOf cw sw :=
  max_eq_left (le_max_right _ _)

/-! ## Claims -/

/-- C2: with `starsWidth = 100`, `maxStarCount = 5` and a cell of width 100
(hence centering offset `xOffset = 0`), `starAtPosition` maps 0 ↦ 0, 3 ↦ 0,
25 ↦ 2, 99 ↦ 5 and 150 ↦ the "no rating" sentinel. -/
theorem c2_end_to_end_scenario :
    xOffsetOf 100 100 = 0 ∧
    starAtPosition 100 5 100 0 = 0 ∧
    starAtPosition 100 5 100 3 = 0 ∧
    starAtPosition 100 5 100 25 = 2 ∧
    starAtPosition 100 5 100 99 = 5 ∧
    starAtPosition 100 5 100 150 = kInvalidStarCount := by
  decide

/-- C3: `starAtPosition` first shifts its input by
`xOffset = max((cellWidth - starsWidth) / 2, 0)` and returns the "no rating"
sentinel exactly when the shifted coordinate is below `leftVoid` or at least
`starsWidth`, where `leftVoid` is `-5%` of `starsWidth` when the offset
exceeds `5%` of `starsWidth` and `0` otherwise. -/
theorem c3_sentinel_iff (sw m cw x : Int) :
    starAtPosition sw m cw x = kInvalidStarCount ↔
      (((x - xOffsetOf cw sw : Int) : ℚ) < leftVoid sw (xOffsetOf cw sw) ∨
        x - xOffsetOf cw sw ≥ sw) := by
  simp only [starAtPosition]
  rw [max_xOffsetOf]
  rw [← leftVoid20_iff]
  simp only [starAtPositionShifted]
  generalize (x - xOffsetOf cw sw).tdiv (starDivisor sw m) + 1 = s
  split
  · rename_i h
    simpa using h
  · rename_i h
    simp only [h, iff_false]
    split
    · simp [kInvalidStarCount, kMinStarCount]
    · split <;> simp [kInvalidStarCount, kMinStarCount] <;> omega

/-- C4: for every shifted coordinate `x` with `0 ≤ x < 5%` of `starsWidth`,
`starAtPosition` (here its post-shift body) returns exactly 0. -/
theorem c4_zero_zone (sw m xo x : Int) (h0 : 0 ≤ x)
    (h5 : (x : ℚ) < (sw : ℚ) * (5 / 100)) :
    starAtPositionShifted sw m xo x = 0 := by
  have h5' : 20 * x < sw := (scaled_lt_iff sw x).mpr h5
  have h1 : ¬(20 * x < leftVoid20 sw xo ∨ x ≥ sw) := by
    unfold leftVoid20
    split <;> omega
  unfold starAtPositionShifted
  rw [if_neg h1, if_pos h5']

/-- Witness for C4 at `starsWidth = 100`, `x = 2`. -/
theorem c4_zero_zone_witness :
    (0 : Int) ≤ 2 ∧ ((2 : Int) : ℚ) < ((100 : Int) : ℚ) * (5 / 100) ∧
      starAtPositionShifted 100 5 0 2 = 0 :=
  ⟨by norm_num, by norm_num,
    c4_zero_zone 100 5 0 2 (by norm_num) (by norm_num)⟩

/-- C10: under `starsWidth ≥ maxStarCount ≥ 1` both divisors of the star
computation are nonzero; and for `0 ≤ starsWidth < maxStarCount` the integer
quotient `starsWidth / maxStarCount` is zero, so the precondition is
required. -/
theorem c10_divisors_nonzero :
    (∀ sw m : Int, 1 ≤ m → m ≤ sw → m ≠ 0 ∧ starDivisor sw m ≠ 0) ∧
    (∀ sw m : Int, 0 ≤ sw → sw < m → starDivisor sw m = 0) := by
  constructor
  · intro sw m hm hms
    refine ⟨by omega, ?_⟩
    unfold starDivisor
    rw [Int.tdiv_eq_ediv (by omega) (by omega)]
    have h1 : 1 ≤ sw / m := (Int.le_ediv_iff_mul_le (by omega)).mpr (by omega)
    omega
  · intro sw m h0 hlt
    exact Int.tdiv_eq_zero_of_lt h0 hlt

/-- Witness for C10 at `(starsWidth, maxStarCount) = (100, 5)` and `(3, 5)`. -/
theorem c10_divisors_nonzero_witness :
    ((5 : Int) ≠ 0 ∧ starDivisor 100 5 ≠ 0) ∧ starDivisor 3 5 = 0 :=
  ⟨c10_divisors_nonzero.1 100 5 (by decide) (by decide),
    c10_divisors_nonzero.2 3 5 (by decide) (by decide)⟩

/-- In the star zone, below the capped top `starDivisor * maxStarCount`, the
mapper returns exactly `x / starDivisor + 1`. -/
lemma starAtPositionShifted_star_zone (sw m xo x : Int) (hm : 1 ≤ m)
    (hms : m ≤ sw) (hx0 : 0 ≤ x) (hxz : sw ≤ 20 * x)
    (hxq : x < starDivisor sw m * m) :
    starAtPositionShifted sw m xo x = x / starDivisor sw m + 1 := by
  have hq1 : 1 ≤ starDivisor sw m := by
    unfold starDivisor
    rw [Int.tdiv_eq_ediv (by omega) (by omega)]
    exact (Int.le_ediv_iff_mul_le (by omega)).mpr (by omega)
  have hqm : starDivisor sw m * m ≤ sw := by
    unfold starDivisor
    rw [Int.tdiv_eq_ediv (by omega) (by omega)]
    exact Int.ediv_mul_le sw (by omega)
  have hxsw : x < sw := lt_of_lt_of_le hxq hqm
  have hlv : ¬(20 * x < leftVoid20 sw xo ∨ x ≥ sw) := by
    unfold leftVoid20
    split <;> omega
  have hstar_lt : x / starDivisor sw m < m :=
    (Int.ediv_lt_iff_lt_mul (by omega)).mpr (by linarith [hxq])
  have hstar_nonneg : 0 ≤ x / starDivisor sw m := Int.ediv_nonneg hx0 (by omega)
  simp only [starAtPositionShifted]
  rw [if_neg hlv, if_neg (by omega : ¬ 20 * x < sw),
    Int.tdiv_eq_ediv hx0 (by omega : (0 : Int) ≤ starDivisor sw m)]
  rw [if_neg (by push_neg; constructor <;> linarith)]

/-- C1 counterexample: with `starsWidth = 21`, `maxStarCount = 5` and shifted
`x = 20` — which lies in `[0, 21)` and outside the left-void and 5% zones —
the mapper returns 0, not a count in `[1, 5]`; monotonicity also fails, since
`x = 19` maps to 5 while `x = 20` maps to 0. -/
theorem c1_star_zone_counterexample :
    ((1 : Int) ≤ 5 ∧ (0 : Int) ≤ 20 ∧ (20 : Int) < 21 ∧
      ¬(20 * 20 < leftVoid20 21 0) ∧ ¬(20 * 20 < (21 : Int))) ∧
    starAtPositionShifted 21 5 0 20 = 0 ∧
    ¬(1 ≤ starAtPositionShifted 21 5 0 20 ∧ starAtPositionShifted 21 5 0 20 ≤ 5) ∧
    starAtPositionShifted 21 5 0 19 = 5 ∧
    ¬(starAtPositionShifted 21 5 0 19 ≤ starAtPositionShifted 21 5 0 20) := by
  decide

/-- C1 (amended): for `maxStarCount ≥ 1`, `starsWidth ≥ maxStarCount`, and
shifted coordinates outside the left-void and explicit-zero zones that are
below `(starsWidth / maxStarCount) * maxStarCount`, the mapper returns a
count in `[1, maxStarCount]`, monotonically non-decreasing in the
coordinate. -/
theorem c1_star_zone_range_mono (sw m xo x y : Int) (hm : 1 ≤ m)
    (hms : m ≤ sw) (hx0 : 0 ≤ x) (hxz : sw ≤ 20 * x) (hxy : x ≤ y)
    (hyq : y < starDivisor sw m * m) :
    (1 ≤ starAtPositionShifted sw m xo x ∧ starAtPositionShifted sw m xo x ≤ m) ∧
    (1 ≤ starAtPositionShifted sw m xo y ∧ starAtPositionShifted sw m xo y ≤ m) ∧
    starAtPositionShifted sw m xo x ≤ starAtPositionShifted sw m xo y := by
  have hq1 : 1 ≤ starDivisor sw m := by
    unfold starDivisor
    rw [Int.tdiv_eq_ediv (by omega) (by omega)]
    exact (Int.le_ediv_iff_mul_le (by omega)).mpr (by omega)
  have hxq : x < starDivisor sw m * m := lt_of_le_of_lt hxy hyq
  have hy0 : 0 ≤ y := le_trans hx0 hxy
  have hyz : sw ≤ 20 * y := by omega
  have hx := starAtPositionShifted_star_zone sw m xo x hm hms hx0 hxz hxq
  have hy := starAtPositionShifted_star_zone sw m xo y hm hms hy0 hyz hyq
  have hxlt : x / starDivisor sw m < m :=
    (Int.ediv_lt_iff_lt_mul (by omega)).mpr (by linarith [hxq])
  have hylt : y / starDivisor sw m < m :=
    (Int.ediv_lt_iff_lt_mul (by omega)).mpr (by linarith [hyq])
  have hxnn : 0 ≤ x / starDivisor sw m := Int.ediv_nonneg hx0 (by omega)
  have hynn : 0 ≤ y / starDivisor sw m := Int.ediv_nonneg hy0 (by omega)
  have hmono : x / starDivisor sw m ≤ y / starDivisor sw m :=
    Int.ediv_le_ediv (by omega) hxy
  rw [hx, hy]
  refine ⟨⟨by linarith, by linarith⟩, ⟨by linarith, by linarith⟩, by linarith⟩

/-- Witness for C1 (amended) at `starsWidth = 100`, `maxStarCount = 5`,
`x = 25`, `y = 40`. -/
theorem c1_star_zone_range_mono_witness :
    (1 ≤ starAtPositionShifted 100 5 0 25 ∧ starAtPositionShifted 100 5 0 25 ≤ 5) ∧
    (1 ≤ starAtPositionShifted 100 5 0 40 ∧ starAtPositionShifted 100 5 0 40 ≤ 5) ∧
    starAtPositionShifted 100 5 0 25 ≤ starAtPositionShifted 100 5 0 40 :=
  c1_star_zone_range_mono 100 5 0 25 40 (by decide) (by decide) (by decide)
    (by decide) (by decide) (by decide)

lemma kInvalidStarCount_eq : kInvalidStarCount = -1 := rfl

/-- `starAtPosition` returns the sentinel, 0, or a count in `[1, maxStarCount]`. -/
lemma starAtPosition_cases (sw m cw x : Int) :
    starAtPosition sw m cw x = kInvalidStarCount ∨ starAtPosition sw m cw x = 0 ∨
    (1 ≤ starAtPosition sw m cw x ∧ starAtPosition sw m cw x ≤ m) := by
  simp only [starAtPosition]
  exact starAtPositionShifted_cases _ _ _ _

/-- C5: on a pointer move, a sentinel mapper result resets the displayed
rating to the last-confirmed value; a valid result different from the
displayed count is stored and a redraw is requested; a result equal to the
displayed count (which is in range) causes no redraw and leaves the state
unchanged. -/
theorem c5_mouse_move_effects (cfg : EditorConfig) (s : EditorState) (x : Int)
    (hs : 0 ≤ s.starCount) :
    (starAtPosition cfg.starsWidth cfg.maxStarCount cfg.cellWidth x = kInvalidStarCount →
      (mouseMoveEvent cfg s x).1.starCount = s.initialCount) ∧
    (starAtPosition cfg.starsWidth cfg.maxStarCount cfg.cellWidth x ≠ kInvalidStarCount →
      starAtPosition cfg.starsWidth cfg.maxStarCount cfg.cellWidth x ≠ s.starCount →
      (mouseMoveEvent cfg s x).1.starCount =
        starAtPosition cfg.starsWidth cfg.maxStarCount cfg.cellWidth x ∧
      (mouseMoveEvent cfg s x).2.1 = true) ∧
    (starAtPosition cfg.starsWidth cfg.maxStarCount cfg.cellWidth x = s.starCount →
      (mouseMoveEvent cfg s x).2.1 = false ∧
      (mouseMoveEvent cfg s x).1 = s) := by
  have hcases := starAtPosition_cases cfg.starsWidth cfg.maxStarCount cfg.cellWidth x
  refine ⟨fun h => ?_, fun h1 h2 => ?_, fun h => ?_⟩
  · simp [mouseMoveEvent, h, resetRating]
  · have h0 : 0 ≤ starAtPosition cfg.starsWidth cfg.maxStarCount cfg.cellWidth x := by
      rcases hcases with h | h | h
      · exact absurd h h1
      · omega
      · omega
    have hnot : ¬(starAtPosition cfg.starsWidth cfg.maxStarCount cfg.cellWidth x
        ≤ kInvalidStarCount) := by
      rw [kInvalidStarCount_eq]
      omega
    simp [mouseMoveEvent, if_neg hnot, if_pos h2]
  · have hnot : ¬(starAtPosition cfg.starsWidth cfg.maxStarCount cfg.cellWidth x
        ≤ kInvalidStarCount) := by
      rw [kInvalidStarCount_eq]
      omega
    rw [h] at hnot
    simp [mouseMoveEvent, h, if_neg hnot]

/-- Witness for C5 at `starsWidth = 100`, `maxStarCount = 5`,
`cellWidth = 100`, state `(starCount, initialCount) = (0, 1)`, `x = 25`. -/
theorem c5_mouse_move_effects_witness :
    (starAtPosition 100 5 100 25 = kInvalidStarCount →
      (mouseMoveEvent ⟨100, 5, 100⟩ ⟨0, 1⟩ 25).1.starCount = (1 : Int)) ∧
    (starAtPosition 100 5 100 25 ≠ kInvalidStarCount →
      starAtPosition 100 5 100 25 ≠ (0 : Int) →
      (mouseMoveEvent ⟨100, 5, 100⟩ ⟨0, 1⟩ 25).1.starCount =
        starAtPosition 100 5 100 25 ∧
      (mouseMoveEvent ⟨100, 5, 100⟩ ⟨0, 1⟩ 25).2.1 = true) ∧
    (starAtPosition 100 5 100 25 = (0 : Int) →
      (mouseMoveEvent ⟨100, 5, 100⟩ ⟨0, 1⟩ 25).2.1 = false ∧
      (mouseMoveEvent ⟨100, 5, 100⟩ ⟨0, 1⟩ 25).1 = ⟨0, 1⟩) :=
  c5_mouse_move_effects ⟨100, 5, 100⟩ ⟨0, 1⟩ 25 (by decide)

/-- C6: a pointer release, whatever button it carries and whatever the
displayed rating is, emits `editingFinished` exactly once and leaves the
editor state untouched. -/
theorem c6_release_emits_once (s : EditorState) (button : Int) :
    (mouseReleaseEvent s button).2 = 1 ∧ (mouseReleaseEvent s button).1 = s :=
  ⟨rfl, rfl⟩

/-- Invariant preservation along event runs: starting from a state whose
displayed and last-confirmed counts are in `[0, maxStarCount]`, both stay in
range, and so does every argument passed to `setStarCount`. -/
lemma runEvents_inv (cfg : EditorConfig) (hm : 0 ≤ cfg.maxStarCount)
    (evs : List EditorEvent) :
    ∀ s : EditorState,
      0 ≤ s.starCount → s.starCount ≤ cfg.maxStarCount →
      0 ≤ s.initialCount → s.initialCount ≤ cfg.maxStarCount →
      (0 ≤ (runEvents cfg s evs).1.starCount ∧
        (runEvents cfg s evs).1.starCount ≤ cfg.maxStarCount ∧
        0 ≤ (runEvents cfg s evs).1.initialCount ∧
        (runEvents cfg s evs).1.initialCount ≤ cfg.maxStarCount) ∧
      ∀ c ∈ (runEvents cfg s evs).2, 0 ≤ c ∧ c ≤ cfg.maxStarCount := by
  induction evs with
  | nil =>
    intro s h1 h2 h3 h4
    simp [runEvents]
    exact ⟨h1, h2, h3, h4⟩
  | cons e es ih =>
    intro s h1 h2 h3 h4
    have hstep :
        (0 ≤ (stepEvent cfg s e).1.starCount ∧
          (stepEvent cfg s e).1.starCount ≤ cfg.maxStarCount ∧
          0 ≤ (stepEvent cfg s e).1.initialCount ∧
          (stepEvent cfg s e).1.initialCount ≤ cfg.maxStarCount) ∧
        ∀ c ∈ (stepEvent cfg s e).2, 0 ≤ c ∧ c ≤ cfg.maxStarCount := by
      cases e with
      | move x =>
        have hcases := starAtPosition_cases cfg.starsWidth cfg.maxStarCount cfg.cellWidth x
        simp only [stepEvent, mouseMoveEvent]
        split
        · simp [resetRating]
          exact ⟨⟨h3, h4, h3, h4⟩, h3, h4⟩
        · rename_i hnot
          rw [kInvalidStarCount_eq] at hnot hcases
          split
          · simp
            refine ⟨⟨by omega, by omega, h3, h4⟩, by omega, by omega⟩
          · simp
            exact ⟨h1, h2, h3, h4⟩
      | leave =>
        simp [stepEvent, leaveEvent, resetRating]
        exact ⟨⟨h3, h4, h3, h4⟩, h3, h4⟩
      | release b =>
        simp [stepEvent, mouseReleaseEvent]
        exact ⟨h1, h2, h3, h4⟩
      | paint =>
        simp [stepEvent]
        exact ⟨h1, h2, h3, h4⟩
    have hrest := ih (stepEvent cfg s e).1 hstep.1.1 hstep.1.2.1 hstep.1.2.2.1
      hstep.1.2.2.2
    simp only [runEvents]
    refine ⟨hrest.1, fun c hc => ?_⟩
    rw [List.mem_append] at hc
    rcases hc with hc | hc
    · exact hstep.2 c hc
    · exact hrest.2 c hc

/-- C9: over any run of pointer events from a freshly created editor whose
loaded rating is in `[0, maxStarCount]`, the stored star count stays in
`[0, maxStarCount]`, and every value passed to `setStarCount` is strictly
above the sentinel and in `[0, maxStarCount]` — the sentinel is never
stored. -/
theorem c9_rating_invariant (cfg : EditorConfig) (evs : List EditorEvent)
    (init : Int) (hm : 0 ≤ cfg.maxStarCount) (h0 : 0 ≤ init)
    (h1 : init ≤ cfg.maxStarCount) :
    (0 ≤ (runEvents cfg (initialEditorState init) evs).1.starCount ∧
      (runEvents cfg (initialEditorState init) evs).1.starCount ≤ cfg.maxStarCount) ∧
    ∀ c ∈ (runEvents cfg (initialEditorState init) evs).2,
      kInvalidStarCount < c ∧ 0 ≤ c ∧ c ≤ cfg.maxStarCount := by
  have h := runEvents_inv cfg hm evs (initialEditorState init) h0 h1 h0 h1
  refine ⟨⟨h.1.1, h.1.2.1⟩, fun c hc => ?_⟩
  have hc' := h.2 c hc
  rw [kInvalidStarCount_eq]
  exact ⟨by omega, hc'.1, hc'.2⟩

/-- Witness for C9: a concrete run (preview 25, leave, preview 3, release). -/
theorem c9_rating_invariant_witness :
    (0 ≤ (runEvents ⟨100, 5, 100⟩ (initialEditorState 3)
        [EditorEvent.move 25, EditorEvent.leave, EditorEvent.move 3,
          EditorEvent.release 0, EditorEvent.paint]).1.starCount ∧
      (runEvents ⟨100, 5, 100⟩ (initialEditorState 3)
        [EditorEvent.move 25, EditorEvent.leave, EditorEvent.move 3,
          EditorEvent.release 0, EditorEvent.paint]).1.starCount ≤
        (EditorConfig.mk 100 5 100).maxStarCount) ∧
    ∀ c ∈ (runEvents ⟨100, 5, 100⟩ (initialEditorState 3)
        [EditorEvent.move 25, EditorEvent.leave, EditorEvent.move 3,
          EditorEvent.release 0, EditorEvent.paint]).2,
      kInvalidStarCount < c ∧ 0 ≤ c ∧ c ≤ (EditorConfig.mk 100 5 100).maxStarCount :=
  c9_rating_invariant ⟨100, 5, 100⟩
    [EditorEvent.move 25, EditorEvent.leave, EditorEvent.move 3,
      EditorEvent.release 0, EditorEvent.paint] 3 (by decide) (by decide) (by decide)

/-- C7 counterexample: `paintEvent` only ever ors `State_Selected` into the
persistent style option, so when the option already carries the selected
flag and the selection model answers "not selected", the flag is not
re-derived from the query: it stays set. -/
theorem c7_paint_counterexample :
    ¬((paintEvent ⟨⟨10, 12⟩, false, true, true, true⟩ ⟨30, 12⟩
        (some (some false))).1.selected = isSelectedQuery (some (some false))) := by
  decide

/-- C7 (amended): on every paint the editor refreshes the option rectangle to
the widget's bounds, sets the mouse-over flag, additionally sets the selected
flag when the hosting view's selection model reports the cell selected (a
previously set flag is never cleared), and delegates to the render helper. -/
theorem c7_paint_amended (opt : QStyleOption) (wr : QRect)
    (tv : Option (Option Bool)) :
    paintEvent opt wr tv =
      ({ rect := wr, mouseOver := true,
         selected := opt.selected || isSelectedQuery tv,
         enabled := opt.enabled, active := opt.active }, true) := by
  rcases opt with ⟨r, mo, sel, en, ac⟩
  by_cases h : isSelectedQuery tv <;> simp [paintEvent, h]

/-- C8: `renderHelper` selects color group Disabled when the enabled flag is
unset, Inactive when enabled but not active, Normal otherwise, and paints
with the palette's highlighted-text color of that group when selected, its
normal text color otherwise. -/
theorem c8_render_colors (palette : QPaletteColorGroup → QPaletteColorRole → Nat)
    (opt : QStyleOption) :
    renderColorGroup opt =
      (if opt.enabled then
        (if opt.active then QPaletteColorGroup.Normal else QPaletteColorGroup.Inactive)
       else QPaletteColorGroup.Disabled) ∧
    renderBrush palette opt =
      palette (renderColorGroup opt)
        (if opt.selected then QPaletteColorRole.HighlightedText
         else QPaletteColorRole.Text) := by
  rcases opt with ⟨r, mo, sel, en, ac⟩
  cases en <;> cases ac <;> cases sel <;>
    simp [renderColorGroup, renderBrush]

end StarEditorSpec
